import Mathlib

/-!
Verification of the zkAgent Rails MVP compliance-authorization core.

This file shallowly embeds the parts of the repository that the spec
claims are about:

* the byte-level policy-hash constructions of
  `agent/src/transactionBuilder.ts` (`buildPlan`, `u256ToBytes`),
  `agent/src/attestationManager.ts` (`calculatePolicyHash`,
  `buildPaymasterAndData`) and `evm/src/CompliancePaymaster.sol`
  (`_policyHash`, `_decode`);
* the on-chain validator `CompliancePaymaster.validatePaymasterUserOp`
  composed with `evm/src/MockEAS.sol`;
* the off-chain pipeline `zkAgent.processPayment`
  (`agent/src/agent.ts`) with `PolicyValidator`
  (`agent/src/policyValidator.ts`) and `RiskAnalyzer`
  (`agent/src/riskAnalyzer.ts`).

keccak256 and the viem ABI encoders are external libraries; they are
treated as parameters (an arbitrary function of the byte string fed to
them), so every equality proved about hashes is an equality of the byte
strings being hashed.  Machine integers: Solidity `uint256` values are
modelled as `Nat` (with explicit `% 2 ^ 256` where overflow matters),
JavaScript `bigint` values as `Int` (JS bigint division truncates
toward zero, which is `Int.tdiv`), JS `number` epoch values as `Int`.
-/

/-! ### Byte-string encodings

Bytes are `Nat`s (intended `< 256`); byte strings are `List Nat`. -/

/-- The loop of `TransactionBuilder.u256ToBytes` (transactionBuilder.ts
lines 152-160): a 32-byte buffer is filled from index 31 down to 0 with
`x & 0xff`, shifting `x` right by 8 bits each step.  `u256ToBytesGo x k`
is the last `k` bytes produced by that loop. -/
def u256ToBytesGo : Nat → Nat → List Nat
  | _, 0 => []
  | x, k + 1 => u256ToBytesGo (x / 256) k ++ [x % 256]

/-- `TransactionBuilder.u256ToBytes`: 32-byte buffer produced by the
byte-filling loop. -/
def u256ToBytes (n : Nat) : List Nat :=
  u256ToBytesGo n 32

/-- Big-endian fixed-width byte encoding, most significant byte first.
`beBytes k x` is the canonical `k`-byte big-endian encoding of
`x % 256 ^ k`.  This models viem `encodePacked` of a fixed-width
unsigned integer (which left-pads the big-endian bytes to the declared
width). -/
def beBytes : Nat → Nat → List Nat
  | 0, _ => []
  | k + 1, x => x / 256 ^ k % 256 :: beBytes k x

/-- The EVM `mstore(p, w)` writes the 32-byte big-endian representation
of the 256-bit word `w`; byte `i` (from the most significant end) is
bits `8*(31-i) .. 8*(31-i)+7` of `w`.  Used by
`CompliancePaymaster._policyHash` (CompliancePaymaster.sol lines
78-86). -/
def mstoreBytes (w : Nat) : List Nat :=
  (List.range 32).map fun i => w / 2 ^ (8 * (31 - i)) % 256

/-- Big-endian interpretation of a byte string as an unsigned integer;
models how `abi.decode` reads a 32-byte word from calldata. -/
def wordOfBytes (bs : List Nat) : Nat :=
  bs.foldl (fun a b => 256 * a + b) 0


/-! ### Policy-hash constructions (C1)

The repository computes the canonical policy hash in three places; all
three feed a 64-byte message to keccak256.  keccak256 is an external
library or EVM primitive, so it is taken as an arbitrary parameter
`kec : List Nat → Nat` (returning the digest as a 256-bit word); the
substantive content of the constructions is the byte string each one
hashes.  The operation hash is a 32-byte value: the TypeScript sources
hold it as a hex string whose decoded bytes are `userOpHashBytes`, the
EVM source holds it as the word `userOpHash`. -/

/-- `TransactionBuilder.buildPlan` (transactionBuilder.ts lines 29-35):
`keccak256(Buffer.concat([Buffer.from(userOpHash.slice(2), "hex"),
this.u256ToBytes(BigInt(epoch))]))`. -/
def TransactionBuilder.buildPlanPolicyHash (kec : List Nat → Nat)
    (userOpHashBytes : List Nat) (epoch : Nat) : Nat :=
  kec (userOpHashBytes ++ u256ToBytes epoch)

/-- `AttestationManager.calculatePolicyHash` (attestationManager.ts
lines 350-354): `keccak256(encodePacked(["bytes32", "uint256"],
[userOpHash, BigInt(epoch)]))`; viem `encodePacked` emits the 32 bytes
of the `bytes32` followed by the 32-byte big-endian encoding of the
`uint256`. -/
def AttestationManager.calculatePolicyHash (kec : List Nat → Nat)
    (userOpHashBytes : List Nat) (epoch : Nat) : Nat :=
  kec (userOpHashBytes ++ beBytes 32 epoch)

/-- `CompliancePaymaster._policyHash` (CompliancePaymaster.sol lines
78-86): `mstore(p, userOpHash); mstore(add(p, 0x20), epoch);
h := keccak256(p, 0x40)` — keccak over the two stored 32-byte words. -/
def CompliancePaymaster.policyHash (kec : List Nat → Nat)
    (userOpHash epoch : Nat) : Nat :=
  kec (mstoreBytes userOpHash ++ mstoreBytes epoch)

/-! ### CompliancePaymaster and MockEAS (C2, C4, C5) -/

/-- Solidity struct `Attestation` from `evm/src/interfaces/IEAS.sol`
(as declared in MockEAS.sol): `bytes32 uid; bytes32 schema; address
attester; uint64 time; uint64 expirationTime; uint64 revocationTime;
bytes32 dataHash`.  All machine integers are modelled as `Nat`. -/
structure EVMAttestation where
  uid : Nat
  schema : Nat
  attester : Nat
  time : Nat
  expirationTime : Nat
  revocationTime : Nat
  dataHash : Nat
deriving DecidableEq, Repr

/-- The zero value Solidity mappings return for an unset key. -/
def zeroAttestation : EVMAttestation :=
  ⟨0, 0, 0, 0, 0, 0, 0⟩

/-- `MockEAS.set` (MockEAS.sol lines 11-13): stores an attestation with
`time = block.timestamp` and `revocationTime = 0` under `uid`.  The
mapping `a` is modelled as a total function with default
`zeroAttestation`. -/
def MockEAS.set (a : Nat → EVMAttestation) (timestamp uid schema attester exp dataHash : Nat) :
    Nat → EVMAttestation :=
  fun u => if u = uid then ⟨uid, schema, attester, timestamp, exp, 0, dataHash⟩ else a u

/-- `MockEAS.isAttestationValid` (MockEAS.sol lines 15-18):
`m.attester != address(0) && (m.expirationTime == 0 ||
m.expirationTime >= block.timestamp)`. -/
def MockEAS.isAttestationValid (a : Nat → EVMAttestation) (timestamp uid : Nat) : Bool :=
  (a uid).attester ≠ 0 ∧ ((a uid).expirationTime = 0 ∨ timestamp ≤ (a uid).expirationTime)

/-- The typed rejections of `CompliancePaymaster.validatePaymasterUserOp`:
the custom errors `InvalidAttestation`, `AttesterNotWhitelisted`,
`ExpiredAttestation` and the two `require` message strings
`PMD_TOO_SHORT` and `POLICY_MISMATCH`.  (`NotEntryPoint` guards
`msg.sender` and is outside the modelled call, which is always made by
the entry point.  The contract declares no replay-related error.) -/
inductive VError where
  | PMD_TOO_SHORT
  | InvalidAttestation
  | AttesterNotWhitelisted
  | ExpiredAttestation
  | POLICY_MISMATCH
deriving DecidableEq, Repr

/-- Struct `CompliancePaymaster.PaymasterData` (CompliancePaymaster.sol
lines 42-46): `bytes32 attUid; bytes32 policyHash; uint256 epoch`. -/
structure PaymasterData where
  attUid : Nat
  policyHash : Nat
  epoch : Nat
deriving DecidableEq, Repr

/-- `CompliancePaymaster._decode` (CompliancePaymaster.sol lines
48-52): `require(d.length >= 20 + 32*3, "PMD_TOO_SHORT")`, strip the
20-byte address prefix, then `abi.decode(inner, (PaymasterData))`,
which reads the three static 32-byte words at offsets 0, 32 and 64 of
`inner` and ignores any bytes beyond them. -/
def CompliancePaymaster.decode (d : List Nat) : Except VError PaymasterData :=
  if d.length < 20 + 32 * 3 then .error .PMD_TOO_SHORT
  else
    let inner := d.drop 20
    .ok { attUid := wordOfBytes (inner.take 32)
          policyHash := wordOfBytes ((inner.drop 32).take 32)
          epoch := wordOfBytes ((inner.drop 64).take 32) }

/-- `CompliancePaymaster.validatePaymasterUserOp` (CompliancePaymaster.sol
lines 54-76), called by the entry point.  The EAS collaborator is
passed as its two functions (`isAttestationValid`, `getAttestation`),
the attester whitelist storage as `whitelist`, `block.timestamp` as
`timestamp` and the keccak256 primitive as `kec`.  On success the
contract returns `("", 0)`; failures revert.  The contract performs no
storage write in this function. -/
def CompliancePaymaster.validatePaymasterUserOp
    (easValid : Nat → Bool) (easGet : Nat → EVMAttestation)
    (schemaUID : Nat) (whitelist : Nat → Bool) (timestamp : Nat)
    (kec : List Nat → Nat) (paymasterAndData : List Nat) (userOpHash : Nat) :
    Except VError Unit :=
  match CompliancePaymaster.decode paymasterAndData with
  | .error e => .error e
  | .ok pmd =>
    if ¬ easValid pmd.attUid then .error .InvalidAttestation
    else
      let a := easGet pmd.attUid
      if a.schema ≠ schemaUID then .error .InvalidAttestation
      else if ¬ whitelist a.attester then .error .AttesterNotWhitelisted
      else if a.expirationTime ≠ 0 ∧ a.expirationTime < timestamp then .error .ExpiredAttestation
      else if CompliancePaymaster.policyHash kec userOpHash pmd.epoch ≠ pmd.policyHash then
        .error .POLICY_MISMATCH
      else .ok ()

/-- The paymaster composed with the repository EAS implementation
(`MockEAS`): attestation lookups answered from the MockEAS mapping at
the same `block.timestamp`. -/
def CompliancePaymaster.validateWithMockEAS
    (a : Nat → EVMAttestation) (schemaUID : Nat) (whitelist : Nat → Bool)
    (timestamp : Nat) (kec : List Nat → Nat)
    (paymasterAndData : List Nat) (userOpHash : Nat) : Except VError Unit :=
  CompliancePaymaster.validatePaymasterUserOp
    (MockEAS.isAttestationValid a timestamp) (fun u => a u)
    schemaUID whitelist timestamp kec paymasterAndData userOpHash

/-- The only mutable storage of `CompliancePaymaster` is the attester
whitelist (CompliancePaymaster.sol line 16). -/
structure PMState where
  attesterWhitelist : Nat → Bool

/-- `CompliancePaymaster.postOp` (CompliancePaymaster.sol lines 88-90):
the body is empty — "MVP: no accounting".  No storage is touched. -/
def CompliancePaymaster.postOp (st : PMState) : PMState :=
  st

/-- `AttestationManager.buildPaymasterAndData` (attestationManager.ts
lines 331-345): `encodePacked(["address", "bytes32", "bytes32",
"uint256"], [paymaster, attUid, policyHash, epoch])` — 20 + 32 + 32 +
32 = 116 bytes. -/
def AttestationManager.buildPaymasterAndData
    (paymasterAddress attUid policyHash epoch : Nat) : List Nat :=
  beBytes 20 paymasterAddress ++ beBytes 32 attUid ++ beBytes 32 policyHash ++ beBytes 32 epoch

/-! ### Off-chain agent pipeline (C3, C6, C7, C8, C9, C10)

Types from `agent/src/types.ts`.  JS `bigint` is `Int`, JS `number`
epochs/timestamps are `Int`, risk scores (small nonnegative `number`
sums) are `Nat`, and the float `confidence` is modelled in `ℚ` (no
claim depends on float rounding).  Hex strings stay `String`; the
external viem/Buffer primitives are the `ExtLib` parameters. -/

/-- `PaymentRequest` (types.ts lines 32-38).  The free-form `metadata`
map feeds only the externally-modelled ABI encoder and is absorbed
into `ExtLib.encodePaymentCall`. -/
structure PaymentRequest where
  merchant : String
  tokenIn : String
  amountIn : Int
  description : String
deriving DecidableEq, Repr

/-- External JavaScript libraries used by the agent (viem keccak256 /
encodeFunctionData / toHex, node Buffer hex decoding).  They are
collaborators outside the repository, so they are arbitrary
parameters. -/
structure ExtLib where
  kec : List Nat → String
  hexToBytes : String → List Nat
  utf8Bytes : String → List Nat
  encodePaymentCall : PaymentRequest → String

/-- `AgentConfig` (types.ts lines 6-30), restricted to the fields the
modelled functions read. -/
structure AgentConfig where
  paymasterAddress : String
  rpcUrl : String
  modelId : String
  schemaUID : String
  maxTransactionValue : Int
  allowedTokens : List String
  allowedMerchants : List String

/-- `MerchantInfo` (types.ts lines 97-104), restricted to the fields
the modelled functions read. -/
structure MerchantInfo where
  address : String
  verified : Bool
  riskScore : Nat
  transactionCount : Nat

/-- `PolicyValidation` (types.ts lines 49-55). -/
structure PolicyValidation where
  valid : Bool
  violations : List String
  warnings : List String
  capRemaining : Int
  epochValid : Bool

/-- `AgentDecision` (types.ts lines 40-47). -/
structure AgentDecision where
  approved : Bool
  reason : String
  riskScore : Nat
  confidence : ℚ
  flags : List String
  suggestedAction : Option String

/-- The address check shared by `PolicyValidator.isValidAddress`
(policyValidator.ts lines 201-203) and
`TransactionBuilder.isValidAddress`: the regex
`^0x[a-fA-F0-9]\x7b40\x7d$`. -/
def isValidAddress (s : String) : Bool :=
  s.length = 42 && s.startsWith "0x" &&
    (s.drop 2).data.all fun c =>
      c.isDigit || (decide ('a' ≤ c) && decide (c ≤ 'f'))
        || (decide ('A' ≤ c) && decide (c ≤ 'F'))

/-- `PolicyValidator.validate` (policyValidator.ts lines 115-184).
`epochSpending` is the per-epoch spend map viewed through
`this.epochSpending.get(epoch) || 0n` (a total function, default 0);
`currentEpoch` stands for `parseInt(Date.now().toString().slice(0, 6))`. -/
def PolicyValidator.validate (cfg : AgentConfig) (epochSpending : Int → Int)
    (req : PaymentRequest) (epoch currentEpoch : Int) : PolicyValidation :=
  let v1 := if 0 < cfg.allowedTokens.length ∧ req.tokenIn.toLower ∉ cfg.allowedTokens then
      ["Token " ++ req.tokenIn ++ " is not in allowlist"] else []
  let v2 := if 0 < cfg.allowedMerchants.length ∧ req.merchant.toLower ∉ cfg.allowedMerchants then
      ["Merchant " ++ req.merchant ++ " is not in allowlist"] else []
  let v3 := if cfg.maxTransactionValue < req.amountIn then
      ["Amount " ++ toString req.amountIn ++ " exceeds max transaction value "
        ++ toString cfg.maxTransactionValue] else []
  let v4 := if req.amountIn = 0 then ["Amount cannot be zero"] else []
  let currentSpending := epochSpending epoch
  let capRemaining := cfg.maxTransactionValue * 10 - currentSpending
  let v5 := if cfg.maxTransactionValue * 10 < currentSpending + req.amountIn then
      ["Epoch spending limit exceeded. Remaining: " ++ toString capRemaining] else []
  let warnings := if capRemaining < cfg.maxTransactionValue then
      ["Low epoch cap remaining: " ++ toString capRemaining] else []
  let epochValid : Bool := (epoch - currentEpoch).natAbs ≤ 1
  let v6 := if epochValid then [] else
      ["Invalid epoch " ++ toString epoch ++ ". Current epoch: " ++ toString currentEpoch]
  let v7 := if isValidAddress req.merchant then [] else
      ["Invalid merchant address: " ++ req.merchant]
  let v8 := if isValidAddress req.tokenIn then [] else
      ["Invalid token address: " ++ req.tokenIn]
  let violations := v1 ++ v2 ++ v3 ++ v4 ++ v5 ++ v6 ++ v7 ++ v8
  { valid := violations.isEmpty
    violations := violations
    warnings := warnings
    capRemaining := capRemaining
    epochValid := epochValid }

/-- `PolicyValidator.recordSpending` (policyValidator.ts lines
186-190): `epochSpending.set(epoch, (get(epoch) || 0n) + amount)`. -/
def PolicyValidator.recordSpending (epochSpending : Int → Int) (epoch : Int) (amount : Int) :
    Int → Int :=
  fun e => if e = epoch then epochSpending epoch + amount else epochSpending e

/-- `RiskFactors` (types.ts lines 88-95). -/
structure RiskFactors where
  merchantUnknown : Bool
  tokenUnknown : Bool
  amountUnusual : Bool
  gasUnusual : Bool
  recentFailures : Nat
  velocityExceeded : Bool

/-- The known-stablecoin list of `RiskAnalyzer.isUnknownToken`
(riskAnalyzer.ts lines 127-135). -/
def knownTokens : List String :=
  ["0xa0b86991c6218b36c1d19d4a2e9eb0ce3606eb48",
   "0xdac17f958d2ee523a2206206994597c13d831ec7",
   "0x6b175474e89094c44da98b954eedeac495271d0f"]

/-- `RiskAnalyzer.isUnknownToken`. -/
def RiskAnalyzer.isUnknownToken (token : String) : Bool :=
  ¬ knownTokens.contains token.toLower

/-- The `while (y < x)` Newton loop of `RiskAnalyzer.sqrt`
(riskAnalyzer.ts lines 162-175).  Each iteration strictly decreases
`x` (the loop body runs only when `y < x`), so starting fuel `x`
bounds the iteration count without truncating it; the fuel argument
only makes the recursion structural.  All loop values are positive
bigints, where JS truncating division coincides with `Nat` division. -/
def RiskAnalyzer.sqrtGo (value : Nat) : Nat → Nat → Nat → Nat
  | 0, x, _ => x
  | fuel + 1, x, y =>
    if y < x then RiskAnalyzer.sqrtGo value fuel y ((y + value / y) / 2) else x

/-- `RiskAnalyzer.sqrt` (riskAnalyzer.ts lines 162-175): returns 0 for
negative input, the input itself below 2, else runs the Newton loop
from `x = value`, `y = (x + 1) / 2`. -/
def RiskAnalyzer.sqrt (value : Int) : Int :=
  if value < 0 then 0
  else if value < 2 then value
  else Int.ofNat (RiskAnalyzer.sqrtGo value.toNat value.toNat value.toNat ((value.toNat + 1) / 2))

/-- `RiskAnalyzer.calculateStdDev` (riskAnalyzer.ts lines 148-160). -/
def RiskAnalyzer.calculateStdDev (amounts : List Int) (avg : Int) : Int :=
  if amounts.length = 0 then 0
  else
    let squaredDiffs := amounts.map fun a =>
      let diff := if avg < a then a - avg else avg - a
      diff * diff
    let avgSquaredDiff := Int.tdiv (squaredDiffs.foldl (· + ·) 0) amounts.length
    RiskAnalyzer.sqrt avgSquaredDiff

/-- The 2-standard-deviation outlier test at the heart of
`RiskAnalyzer.isUnusualAmount` (riskAnalyzer.ts lines 140-145),
factored out of the history-size gate. -/
def RiskAnalyzer.outlier (hist : List PaymentRequest) (amount : Int) : Bool :=
  let amounts := hist.map (·.amountIn)
  let avg := Int.tdiv (amounts.foldl (· + ·) 0) amounts.length
  let stdDev := RiskAnalyzer.calculateStdDev amounts avg
  (avg + stdDev * 2 < amount) || (amount < avg - stdDev * 2)

/-- `RiskAnalyzer.isUnusualAmount` (riskAnalyzer.ts lines 137-146):
`if (this.transactionHistory.length < 10) return false;` then the
outlier test. -/
def RiskAnalyzer.isUnusualAmount (hist : List PaymentRequest) (amount : Int) : Bool :=
  if hist.length < 10 then false else RiskAnalyzer.outlier hist amount

/-- `RiskAnalyzer.getRecentFailures` (riskAnalyzer.ts lines 177-181):
"For MVP, return 0". -/
def RiskAnalyzer.getRecentFailures (_merchant : String) : Nat :=
  0

/-- `RiskAnalyzer.checkVelocity` (riskAnalyzer.ts lines 183-191): more
than 5 history entries for the same (lowercased) merchant. -/
def RiskAnalyzer.checkVelocity (hist : List PaymentRequest) (merchant : String) : Bool :=
  5 < (hist.filter fun tx => tx.merchant.toLower == merchant.toLower).length

/-- `RiskAnalyzer.identifyRiskFactors` (riskAnalyzer.ts lines 81-92);
`merchantDatabase` is the `Map` viewed as a partial function on
lowercased addresses.  Note `gasUnusual` is hard-coded `false`. -/
def RiskAnalyzer.identifyRiskFactors (db : String → Option MerchantInfo)
    (hist : List PaymentRequest) (req : PaymentRequest) : RiskFactors :=
  { merchantUnknown := (db req.merchant.toLower).isNone
    tokenUnknown := RiskAnalyzer.isUnknownToken req.tokenIn
    amountUnusual := RiskAnalyzer.isUnusualAmount hist req.amountIn
    gasUnusual := false
    recentFailures := RiskAnalyzer.getRecentFailures req.merchant
    velocityExceeded := RiskAnalyzer.checkVelocity hist req.merchant }

/-- `RiskAnalyzer.calculateRiskScore` (riskAnalyzer.ts lines 94-109):
additive weights, capped by `Math.min(score, 100)`. -/
def RiskAnalyzer.calculateRiskScore (f : RiskFactors) (policyValid : Bool) : Nat :=
  min ((if policyValid then 0 else 100)
    + (if f.merchantUnknown then 20 else 0)
    + (if f.tokenUnknown then 15 else 0)
    + (if f.amountUnusual then 25 else 0)
    + (if f.gasUnusual then 10 else 0)
    + (if f.velocityExceeded then 30 else 0)
    + f.recentFailures * 10) 100

/-- `RiskAnalyzer.calculateConfidence` (riskAnalyzer.ts lines 111-125),
with the JS floats carried exactly in `ℚ`. -/
def RiskAnalyzer.calculateConfidence (db : String → Option MerchantInfo)
    (req : PaymentRequest) (f : RiskFactors) : ℚ :=
  let c1 : ℚ := 1 - (if f.merchantUnknown then (1 : ℚ) / 5 else 0)
    - (if f.tokenUnknown then (1 : ℚ) / 10 else 0)
  let c2 : ℚ :=
    match db req.merchant.toLower with
    | some m => if 10 < m.transactionCount then c1 + 1 / 10 else c1
    | none => c1
  max 0 (min 1 c2)

/-- The decision block of `RiskAnalyzer.analyze` (riskAnalyzer.ts
lines 34-55), a function of `policyValid` and the risk score only:
returns (approved, reason, suggestedAction, flags pushed by the
branch). -/
def RiskAnalyzer.riskDecision (policyValid : Bool) (riskScore : Nat) :
    Bool × String × Option String × List String :=
  if ¬ policyValid then
    (false, "Policy validation failed", some "Fix policy violations and retry", [])
  else if riskScore < 30 then
    (true, "Low risk transaction", none, [])
  else if riskScore < 60 then
    (true, "Medium risk transaction - approved with monitoring", none, ["REQUIRES_MONITORING"])
  else if riskScore < 80 then
    (false, "High risk transaction - requires review", some "Manual review required",
      ["REQUIRES_REVIEW"])
  else
    (false, "Very high risk transaction - rejected", some "Transaction blocked due to high risk",
      [])

/-- The factor flags pushed by `RiskAnalyzer.analyze` (riskAnalyzer.ts
lines 23-28) before the decision block. -/
def RiskAnalyzer.baseFlags (f : RiskFactors) : List String :=
  (if f.merchantUnknown then ["UNKNOWN_MERCHANT"] else [])
    ++ (if f.tokenUnknown then ["UNKNOWN_TOKEN"] else [])
    ++ (if f.amountUnusual then ["UNUSUAL_AMOUNT"] else [])
    ++ (if f.velocityExceeded then ["HIGH_VELOCITY"] else [])
    ++ (if 0 < f.recentFailures then ["RECENT_FAILURES"] else [])

/-- `RiskAnalyzer.analyze` (riskAnalyzer.ts lines 18-79): computes
factors, score, confidence and flags, decides by score band, then
appends the request to the rolling history truncated to the most
recent 1000 entries.  Returns the decision and the new history. -/
def RiskAnalyzer.analyze (db : String → Option MerchantInfo) (hist : List PaymentRequest)
    (req : PaymentRequest) (policyValid : Bool) : AgentDecision × List PaymentRequest :=
  let factors := RiskAnalyzer.identifyRiskFactors db hist req
  let riskScore := RiskAnalyzer.calculateRiskScore factors policyValid
  let confidence := RiskAnalyzer.calculateConfidence db req factors
  let d := RiskAnalyzer.riskDecision policyValid riskScore
  let h := hist ++ [req]
  let newHist := if 1000 < h.length then h.drop (h.length - 1000) else h
  ({ approved := d.1
     reason := d.2.1
     riskScore := riskScore
     confidence := confidence
     flags := RiskAnalyzer.baseFlags factors ++ d.2.2.2
     suggestedAction := d.2.2.1 }, newHist)

/-- `TransactionPlan` (types.ts lines 69-77). -/
structure TransactionPlan where
  userOpHash : String
  callData : String
  target : String
  value : Int
  gasEstimate : Int
  policyHash : String
  epoch : Int

/-- `TransactionBuilder.estimateGas` (transactionBuilder.ts lines
102-111): `21000 + 100000 + 50000`. -/
def TransactionBuilder.estimateGas : Int :=
  21000 + 100000 + 50000

/-- `TransactionBuilder.calculateUserOpHash` (transactionBuilder.ts
lines 86-97): keccak of merchant bytes, token bytes, the 32-byte
amount and the callData bytes.  A negative bigint is written by the
`u256ToBytes` loop as its low 256 bits in two-complement form, i.e.
`amount.emod (2 ^ 256)`. -/
def TransactionBuilder.calculateUserOpHash (ext : ExtLib) (req : PaymentRequest)
    (callData : String) : String :=
  ext.kec (ext.hexToBytes (req.merchant.drop 2) ++ ext.hexToBytes (req.tokenIn.drop 2)
    ++ u256ToBytes (req.amountIn.emod (2 ^ 256)).toNat ++ ext.hexToBytes (callData.drop 2))

/-- `TransactionBuilder.buildPlan` (transactionBuilder.ts lines
22-52). -/
def TransactionBuilder.buildPlan (ext : ExtLib) (req : PaymentRequest) (epoch : Int) :
    TransactionPlan :=
  let callData := ext.encodePaymentCall req
  let userOpHash := TransactionBuilder.calculateUserOpHash ext req callData
  let policyHash := ext.kec (ext.hexToBytes (userOpHash.drop 2)
    ++ u256ToBytes (epoch.emod (2 ^ 256)).toNat)
  { userOpHash := userOpHash
    callData := callData
    target := req.merchant
    value := 0
    gasEstimate := TransactionBuilder.estimateGas
    policyHash := policyHash
    epoch := epoch }

/-- `TransactionBuilder.validate` (transactionBuilder.ts lines
116-146): returns (valid, errors). -/
def TransactionBuilder.validate (plan : TransactionPlan) : Bool × List String :=
  let e1 := if 1000000 < plan.gasEstimate then
      ["Gas estimate too high: " ++ toString plan.gasEstimate] else []
  let e2 := if plan.gasEstimate = 0 then ["Gas estimate cannot be zero"] else []
  let e3 := if isValidAddress plan.target then [] else
      ["Invalid target address: " ++ plan.target]
  let e4 := if plan.userOpHash.startsWith "0x" ∧ plan.userOpHash.length = 66 then [] else
      ["Invalid userOpHash format: " ++ plan.userOpHash]
  let e5 := if plan.policyHash.startsWith "0x" ∧ plan.policyHash.length = 66 then [] else
      ["Invalid policyHash format: " ++ plan.policyHash]
  let errors := e1 ++ e2 ++ e3 ++ e4 ++ e5
  (errors.isEmpty, errors)

/-- `Attestation` (types.ts lines 57-67), the TypeScript-side
attestation record. -/
structure TsAttestation where
  uid : String
  schema : String
  attester : String
  recipient : String
  time : Int
  expirationTime : Int
  revocable : Bool
  refUID : String
  data : String

/-- `AttestationManager.encodeAttestationData` (attestationManager.ts
lines 281-301). -/
def AttestationManager.encodeAttestationData (ext : ExtLib)
    (modelId prompt planDescription userOpHash policyHash : String) (epoch : Int) : String :=
  let modelHash := ext.kec (ext.utf8Bytes modelId)
  let promptHash := ext.kec (ext.utf8Bytes prompt)
  let planHash := ext.kec (ext.utf8Bytes planDescription)
  ext.kec (ext.hexToBytes (modelHash.drop 2) ++ ext.hexToBytes (promptHash.drop 2)
    ++ ext.hexToBytes (planHash.drop 2) ++ ext.hexToBytes (userOpHash.drop 2)
    ++ ext.hexToBytes (policyHash.drop 2) ++ beBytes 32 (epoch.emod (2 ^ 256)).toNat)

/-- `AttestationManager.createAttestation` (attestationManager.ts
lines 230-276): sets `time = now`, `expiration = now + 3600` (one
hour), `schema = config.schemaUID`, `attester = config.paymasterAddress`
and a keccak-derived mock uid.  `nowSec` stands for
`BigInt(Math.floor(Date.now() / 1000))`. -/
def AttestationManager.createAttestation (ext : ExtLib) (cfg : AgentConfig)
    (plan : TransactionPlan) (modelId prompt planDescription : String) (nowSec : Int) :
    TsAttestation :=
  let expiration := nowSec + 3600
  let attestationData := AttestationManager.encodeAttestationData ext modelId prompt
    planDescription plan.userOpHash plan.policyHash plan.epoch
  let uid := ext.kec (ext.hexToBytes (attestationData.drop 2)
    ++ ext.hexToBytes (cfg.paymasterAddress.drop 2) ++ beBytes 8 (nowSec.emod (2 ^ 64)).toNat)
  { uid := uid
    schema := cfg.schemaUID
    attester := cfg.paymasterAddress
    recipient := plan.target
    time := nowSec
    expirationTime := expiration
    revocable := true
    refUID := "0x" ++ String.mk (List.replicate 64 '0')
    data := attestationData }

/-- `AttestationManager.verifyAttestation` (attestationManager.ts
lines 306-326): false when expired (`expirationTime > 0` and
`< now`) or on schema mismatch. -/
def AttestationManager.verifyAttestation (cfg : AgentConfig) (att : TsAttestation)
    (nowSec : Int) : Bool :=
  if 0 < att.expirationTime ∧ att.expirationTime < nowSec then false
  else if att.schema ≠ cfg.schemaUID then false
  else true

/-- `zkAgent.validateConfiguration` (agent.ts lines 197-212); JS
falsiness of a string is emptiness. -/
def zkAgent.validateConfiguration (cfg : AgentConfig) : Bool × List String :=
  let e1 := if cfg.paymasterAddress = "" then ["Paymaster address not configured"] else []
  let e2 := if cfg.rpcUrl = "" then ["RPC URL not configured"] else []
  ((e1 ++ e2).isEmpty, e1 ++ e2)

/-- The `options` argument of `zkAgent.processPayment` (agent.ts lines
43-49). -/
structure PaymentOptions where
  modelId : Option String := none
  prompt : Option String := none
  planDescription : Option String := none
  epoch : Option Int := none
  skipRiskAnalysis : Bool := false

/-- JS `a || b` on an optional string: the default is used when the
option is absent or empty (falsy). -/
def jsOrString (v : Option String) (dflt : String) : String :=
  match v with
  | some s => if s = "" then dflt else s
  | none => dflt

/-- JS `a || b` on an optional number: the default is used when the
option is absent or zero (falsy). -/
def jsOrInt (v : Option Int) (dflt : Int) : Int :=
  match v with
  | some n => if n = 0 then dflt else n
  | none => dflt

/-- The mutable state `zkAgent.processPayment` touches: the
Policy-Store spending map owned by `PolicyValidator`, and the
rolling history and merchant registry owned by `RiskAnalyzer`. -/
structure AgentState where
  epochSpending : Int → Int
  transactionHistory : List PaymentRequest
  merchantDatabase : String → Option MerchantInfo

/-- `AgentAnalysis` (types.ts lines 79-86) without the wall-clock
timestamp field. -/
structure AgentAnalysis where
  request : PaymentRequest
  decision : AgentDecision
  policyValidation : PolicyValidation
  transactionPlan : TransactionPlan
  attestation : Option TsAttestation

/-- `zkAgent.processPayment` (agent.ts lines 41-139), the end-to-end
pipeline: configuration check, plan build + validation, policy
validation, risk analysis (or the skip variant), then — only on an
approved decision — attestation creation/verification and
`recordSpending`.  Thrown `Error`s are `.error` results.
`currentEpoch` stands for `parseInt(Date.now().toString().slice(0, 6))`
and `nowSec` for the attestation clock; the instants inside one call
are modelled as one instant. -/
def zkAgent.processPayment (ext : ExtLib) (cfg : AgentConfig) (o : PaymentOptions)
    (currentEpoch nowSec : Int) (st : AgentState) (req : PaymentRequest) :
    Except String AgentAnalysis × AgentState :=
  let cv := zkAgent.validateConfiguration cfg
  if ¬ cv.1 then (.error ("Configuration invalid: " ++ String.intercalate ", " cv.2), st)
  else
    let epoch := jsOrInt o.epoch currentEpoch
    let plan := TransactionBuilder.buildPlan ext req epoch
    let planV := TransactionBuilder.validate plan
    if ¬ planV.1 then
      (.error ("Transaction plan invalid: " ++ String.intercalate ", " planV.2), st)
    else
      let policyValidation := PolicyValidator.validate cfg st.epochSpending req epoch currentEpoch
      let dh : AgentDecision × List PaymentRequest :=
        if o.skipRiskAnalysis then
          ({ approved := policyValidation.valid
             reason := if policyValidation.valid then "Policy valid, risk analysis skipped"
               else "Policy validation failed"
             riskScore := 0
             confidence := 1
             flags := []
             suggestedAction := none }, st.transactionHistory)
        else RiskAnalyzer.analyze st.merchantDatabase st.transactionHistory req
          policyValidation.valid
      let decision := dh.1
      let hist2 := dh.2
      if decision.approved then
        let att := AttestationManager.createAttestation ext cfg plan
          (jsOrString o.modelId cfg.modelId)
          (jsOrString o.prompt
            ("Pay " ++ req.merchant ++ " " ++ toString req.amountIn ++ " of " ++ req.tokenIn))
          (jsOrString o.planDescription req.description) nowSec
        if ¬ AttestationManager.verifyAttestation cfg att nowSec then
          (.error "Attestation verification failed", { st with transactionHistory := hist2 })
        else
          (.ok { request := req, decision := decision, policyValidation := policyValidation,
                 transactionPlan := plan, attestation := some att },
           { st with transactionHistory := hist2,
                     epochSpending := PolicyValidator.recordSpending st.epochSpending epoch
                       req.amountIn })
      else
        (.ok { request := req, decision := decision, policyValidation := policyValidation,
               transactionPlan := plan, attestation := none },
         { st with transactionHistory := hist2 })

/-- Whether a pipeline result is an approval (thrown errors count as
not approved). -/
def approvedResult (r : Except String AgentAnalysis) : Bool :=
  match r with
  | .ok a => a.decision.approved
  | .error _ => false

/-- Sequential submission of a list of requests through
`zkAgent.processPayment`, as repeated calls on one agent instance:
final state. -/
def zkAgent.runPayments (ext : ExtLib) (cfg : AgentConfig) (o : PaymentOptions)
    (currentEpoch nowSec : Int) : AgentState → List PaymentRequest → AgentState
  | st, [] => st
  | st, r :: rs =>
    zkAgent.runPayments ext cfg o currentEpoch nowSec
      (zkAgent.processPayment ext cfg o currentEpoch nowSec st r).2 rs

/-- The amounts of the requests approved (committed) along a
sequential submission. -/
def zkAgent.approvedAmounts (ext : ExtLib) (cfg : AgentConfig) (o : PaymentOptions)
    (currentEpoch nowSec : Int) : AgentState → List PaymentRequest → List Int
  | _, [] => []
  | st, r :: rs =>
    let p := zkAgent.processPayment ext cfg o currentEpoch nowSec st r
    (if approvedResult p.1 then [r.amountIn] else [])
      ++ zkAgent.approvedAmounts ext cfg o currentEpoch nowSec p.2 rs

/-- The risk-score formula as the specification words it (claim C8):
the sum of the triggered factor weights — +100 for a policy violation,
+20 unknown merchant, +15 unknown asset, +25 statistical amount
outlier applied only once at least 10 history samples exist, +30
exceeded merchant velocity, +10 per recent failed attempt — capped at
100.  Written from the claim for comparison with the code-side
`RiskAnalyzer.calculateRiskScore ∘ identifyRiskFactors`. -/
def specRiskScore (db : String → Option MerchantInfo) (hist : List PaymentRequest)
    (req : PaymentRequest) (policyValid : Bool) : Nat :=
  min ((if ¬ policyValid then 100 else 0)
    + (if (db req.merchant.toLower).isNone then 20 else 0)
    + (if RiskAnalyzer.isUnknownToken req.tokenIn then 15 else 0)
    + (if 10 ≤ hist.length ∧ RiskAnalyzer.outlier hist req.amountIn then 25 else 0)
    + (if RiskAnalyzer.checkVelocity hist req.merchant then 30 else 0)
    + 10 * RiskAnalyzer.getRecentFailures req.merchant) 100

/-! ### General lemmas about the byte encodings -/

theorem beBytes_length (k x : Nat) : (beBytes k x).length = k := by
  induction k generalizing x with
  | zero => rfl
  | succ k ih => simp [beBytes, ih]

theorem beBytes_succ_split (k : Nat) :
    ∀ x, beBytes (k + 1) x = beBytes k (x / 256) ++ [x % 256] := by
  induction k with
  | zero => intro x; simp [beBytes]
  | succ k ih =>
    intro x
    show x / 256 ^ (k + 1) % 256 :: beBytes (k + 1) x
        = (x / 256 / 256 ^ k % 256 :: beBytes k (x / 256)) ++ [x % 256]
    rw [ih x, List.cons_append, List.cons_eq_cons]
    refine ⟨?_, rfl⟩
    rw [Nat.div_div_eq_div_mul, pow_succ, mul_comm (256 ^ k) 256]

/-- The `u256ToBytes` loop produces exactly the big-endian fixed-width
encoding. -/
theorem u256ToBytesGo_eq_beBytes (k : Nat) : ∀ x, u256ToBytesGo x k = beBytes k x := by
  induction k with
  | zero => intro x; rfl
  | succ k ih =>
    intro x
    rw [u256ToBytesGo, ih, beBytes_succ_split]

theorem u256ToBytes_eq_beBytes (n : Nat) : u256ToBytes n = beBytes 32 n :=
  u256ToBytesGo_eq_beBytes 32 n

theorem beBytes_eq_map (k : Nat) :
    ∀ x, beBytes k x = (List.range k).map fun i => x / 256 ^ (k - 1 - i) % 256 := by
  induction k with
  | zero => intro x; rfl
  | succ k ih =>
    intro x
    rw [beBytes, ih, List.range_succ_eq_map]
    simp only [List.map_cons, List.map_map, List.cons_eq_cons]
    refine ⟨by simp, ?_⟩
    apply List.map_congr_left
    intro i hi
    show x / 256 ^ (k - 1 - i) % 256 = x / 256 ^ (k + 1 - 1 - (i + 1)) % 256
    have he : k - 1 - i = k + 1 - 1 - (i + 1) := by omega
    rw [he]

/-- `mstore` of a word agrees with the canonical big-endian encoding of
the word reduced mod `2 ^ 256`. -/
theorem mstoreBytes_eq_beBytes (w : Nat) :
    mstoreBytes w = beBytes 32 (w % 2 ^ 256) := by
  rw [mstoreBytes, beBytes_eq_map]
  apply List.map_congr_left
  intro i hi
  have hi32 : i < 32 := List.mem_range.mp hi
  have h256 : (256 : Nat) ^ (32 - 1 - i) = 2 ^ (8 * (31 - i)) := by
    rw [show (256 : Nat) = 2 ^ 8 by norm_num, ← pow_mul]
  rw [h256]
  have hsplit : (2 : Nat) ^ 256 = 2 ^ (8 * (31 - i)) * 2 ^ (256 - 8 * (31 - i)) := by
    rw [← pow_add]
    congr 1
    omega
  rw [hsplit, Nat.mod_mul_right_div_self]
  have hdvd : (256 : Nat) ∣ 2 ^ (256 - 8 * (31 - i)) := by
    rw [show (256 : Nat) = 2 ^ 8 by norm_num]
    exact pow_dvd_pow 2 (by omega)
  rw [Nat.mod_mod_of_dvd _ hdvd]

theorem foldl_word_go (bs : List Nat) :
    ∀ a : Nat, bs.foldl (fun a b => 256 * a + b) a
      = a * 256 ^ bs.length + bs.foldl (fun a b => 256 * a + b) 0 := by
  induction bs with
  | nil => intro a; simp
  | cons b bs ih =>
    intro a
    rw [List.foldl_cons, List.foldl_cons, ih (256 * a + b), ih (256 * 0 + b)]
    simp only [List.length_cons, pow_succ]
    ring

theorem wordOfBytes_cons (b : Nat) (bs : List Nat) :
    wordOfBytes (b :: bs) = b * 256 ^ bs.length + wordOfBytes bs := by
  rw [wordOfBytes, List.foldl_cons, foldl_word_go]
  simp only [mul_zero, zero_add]
  rfl

theorem wordOfBytes_lt (bs : List Nat) (h : ∀ b ∈ bs, b < 256) :
    wordOfBytes bs < 256 ^ bs.length := by
  induction bs with
  | nil => simp [wordOfBytes]
  | cons b bs ih =>
    rw [wordOfBytes_cons]
    have hb : b < 256 := h b (List.mem_cons_self b bs)
    have hbs : wordOfBytes bs < 256 ^ bs.length :=
      ih fun x hx => h x (List.mem_cons_of_mem b hx)
    have h1 : b * 256 ^ bs.length + wordOfBytes bs < (b + 1) * 256 ^ bs.length := by
      rw [add_mul, one_mul]
      omega
    have h2 : (b + 1) * 256 ^ bs.length ≤ 256 ^ bs.length * 256 := by
      rw [mul_comm]
      exact Nat.mul_le_mul_left _ (by omega)
    rw [List.length_cons, pow_succ]
    omega

theorem beBytes_add_mul (k : Nat) :
    ∀ x c, beBytes k (c * 256 ^ k + x) = beBytes k x := by
  induction k with
  | zero => intro x c; rfl
  | succ k ih =>
    intro x c
    rw [beBytes, beBytes, List.cons_eq_cons]
    refine ⟨?_, ?_⟩
    · rw [show c * 256 ^ (k + 1) + x = x + c * 256 * 256 ^ k by rw [pow_succ]; ring]
      rw [Nat.add_mul_div_right _ _ (show 0 < (256:Nat) ^ k by positivity)]
      exact Nat.add_mul_mod_self_right _ _ _
    · rw [show c * 256 ^ (k + 1) + x = c * 256 * 256 ^ k + x by rw [pow_succ]; ring]
      exact ih x (c * 256)

/-- Decoding the big-endian bytes of a 32-byte word recovers the
word. -/
theorem wordOfBytes_beBytes (k : Nat) :
    ∀ v, v < 256 ^ k → wordOfBytes (beBytes k v) = v := by
  induction k with
  | zero => intro v hv; interval_cases v; rfl
  | succ k ih =>
    intro v hv
    have hpos : 0 < (256:Nat) ^ k := by positivity
    have hv2 : v / 256 ^ k < 256 := by
      rw [Nat.div_lt_iff_lt_mul hpos]
      have hps : (256:Nat) ^ (k + 1) = 256 * 256 ^ k := by rw [pow_succ, mul_comm]
      omega
    have hsplit : v = v / 256 ^ k * 256 ^ k + v % 256 ^ k := by
      rw [mul_comm]
      exact (Nat.div_add_mod v (256 ^ k)).symm
    rw [beBytes, wordOfBytes_cons, beBytes_length, Nat.mod_eq_of_lt hv2]
    have ht : beBytes k v = beBytes k (v % 256 ^ k) := by
      conv_lhs => rw [hsplit]
      exact beBytes_add_mul k (v % 256 ^ k) (v / 256 ^ k)
    rw [ht, ih _ (Nat.mod_lt _ hpos)]
    exact hsplit.symm

/-- Re-encoding the word read from 32 valid bytes recovers the
bytes. -/
theorem beBytes_wordOfBytes (bs : List Nat) (h : ∀ b ∈ bs, b < 256) :
    beBytes bs.length (wordOfBytes bs) = bs := by
  induction bs with
  | nil => rfl
  | cons b bs ih =>
    have hb : b < 256 := h b (List.mem_cons_self b bs)
    have hbs : wordOfBytes bs < 256 ^ bs.length :=
      wordOfBytes_lt bs fun x hx => h x (List.mem_cons_of_mem b hx)
    rw [List.length_cons, wordOfBytes_cons, beBytes, List.cons_eq_cons]
    refine ⟨?_, ?_⟩
    · rw [add_comm, Nat.add_mul_div_right _ _ (show 0 < (256:Nat) ^ bs.length by positivity),
        Nat.div_eq_of_lt hbs, Nat.zero_add, Nat.mod_eq_of_lt hb]
    · rw [beBytes_add_mul]
      exact ih fun x hx => h x (List.mem_cons_of_mem b hx)

/-! ### Claim theorems -/

/-- C1: for every 32-byte operation hash and every epoch below
`2 ^ 256`, the policy hash computed by `TransactionBuilder.buildPlan`,
by `AttestationManager.calculatePolicyHash and by
`CompliancePaymaster._policyHash` agree: all three hash exactly the 32
operation-hash bytes followed by the 32-byte big-endian encoding of
the epoch, for any choice of the keccak256 function. -/
theorem C1_policyHash_agree (kec : List Nat → Nat) (hb : List Nat) (e : Nat)
    (hlen : hb.length = 32) (hbytes : ∀ b ∈ hb, b < 256) (he : e < 2 ^ 256) :
    TransactionBuilder.buildPlanPolicyHash kec hb e
      = AttestationManager.calculatePolicyHash kec hb e
    ∧ AttestationManager.calculatePolicyHash kec hb e
      = CompliancePaymaster.policyHash kec (wordOfBytes hb) e := by
  have h2 : (256 : Nat) ^ 32 = 2 ^ 256 := by norm_num
  constructor
  · unfold TransactionBuilder.buildPlanPolicyHash AttestationManager.calculatePolicyHash
    rw [u256ToBytes_eq_beBytes]
  · unfold AttestationManager.calculatePolicyHash CompliancePaymaster.policyHash
    rw [mstoreBytes_eq_beBytes, mstoreBytes_eq_beBytes]
    have hw : wordOfBytes hb < 2 ^ 256 := by
      have h3 := wordOfBytes_lt hb hbytes
      rw [hlen, h2] at h3
      exact h3
    rw [Nat.mod_eq_of_lt hw, Nat.mod_eq_of_lt he]
    have hback : beBytes 32 (wordOfBytes hb) = hb := by
      have h3 := beBytes_wordOfBytes hb hbytes
      rw [hlen] at h3
      exact h3
    rw [hback]

/-- Witness for C1 at a concrete hash function, operation hash and
epoch. -/
theorem C1_policyHash_agree_witness :
    TransactionBuilder.buildPlanPolicyHash (fun l => l.length) (List.replicate 32 0) 5
      = AttestationManager.calculatePolicyHash (fun l => l.length) (List.replicate 32 0) 5 :=
  (C1_policyHash_agree (fun l => l.length) (List.replicate 32 0) 5 (by decide) (by decide)
    (by norm_num)).1

/-- C5 counterexample: a 117-byte payload is accepted by
`CompliancePaymaster._decode` (its length check is `>=`, not `==`), so
a payload whose length is not exactly 116 bytes is not always
rejected, and an accepted payload need not have exactly 116 bytes. -/
theorem C5_decode_counterexample :
    CompliancePaymaster.decode
        (List.replicate 20 0 ++ beBytes 32 1 ++ beBytes 32 0 ++ beBytes 32 7 ++ [0])
      = .ok { attUid := 1, policyHash := 0, epoch := 7 }
    ∧ (List.replicate 20 0 ++ beBytes 32 1 ++ beBytes 32 0 ++ beBytes 32 7 ++ [0]).length
        ≠ 116 := by
  constructor
  · rfl
  · decide

/-- C5 (amended): the validator rejects a payload as `PMD_TOO_SHORT`
exactly when it is shorter than 116 bytes; every payload of at least
116 bytes is accepted, with the first 20 bytes stripped as the routing
prefix and the following 96 bytes decoded as (attestationRef,
policyHash, epoch), further bytes being ignored.  The payload built by
`AttestationManager.buildPaymasterAndData` is exactly 116 bytes and
round-trips through the decoder. -/
theorem C5_decode_amended :
    (∀ d : List Nat,
      (d.length < 116 → CompliancePaymaster.decode d = .error .PMD_TOO_SHORT)
      ∧ (116 ≤ d.length →
          CompliancePaymaster.decode d
            = .ok { attUid := wordOfBytes ((d.drop 20).take 32)
                    policyHash := wordOfBytes ((d.drop 52).take 32)
                    epoch := wordOfBytes ((d.drop 84).take 32) }))
    ∧ (∀ pm u p e : Nat, u < 2 ^ 256 → p < 2 ^ 256 → e < 2 ^ 256 →
        (AttestationManager.buildPaymasterAndData pm u p e).length = 116
        ∧ CompliancePaymaster.decode (AttestationManager.buildPaymasterAndData pm u p e)
            = .ok { attUid := u, policyHash := p, epoch := e }) := by
  have h2 : (256 : Nat) ^ 32 = 2 ^ 256 := by norm_num
  constructor
  · intro d
    constructor
    · intro h
      unfold CompliancePaymaster.decode
      rw [if_pos (by omega)]
    · intro h
      unfold CompliancePaymaster.decode
      rw [if_neg (by omega)]
      norm_num [List.drop_drop]
  · intro pm u p e hu hp he
    have hL : (AttestationManager.buildPaymasterAndData pm u p e).length = 116 := by
      simp [AttestationManager.buildPaymasterAndData, beBytes_length]
    refine ⟨hL, ?_⟩
    have hdrop20 : (AttestationManager.buildPaymasterAndData pm u p e).drop 20
        = beBytes 32 u ++ (beBytes 32 p ++ beBytes 32 e) := by
      unfold AttestationManager.buildPaymasterAndData
      rw [List.append_assoc, List.append_assoc, List.drop_left' (beBytes_length 20 pm)]
    unfold CompliancePaymaster.decode
    rw [if_neg (by omega)]
    simp only [hdrop20]
    rw [List.take_left' (beBytes_length 32 u)]
    rw [List.drop_left' (beBytes_length 32 u), List.take_left' (beBytes_length 32 p)]
    rw [show (64 : Nat) = 32 + 32 from rfl, ← List.drop_drop,
      List.drop_left' (beBytes_length 32 u), List.drop_left' (beBytes_length 32 p)]
    rw [List.take_of_length_le (le_of_eq (beBytes_length 32 e))]
    rw [wordOfBytes_beBytes 32 u (by rw [← h2] at hu; exact hu),
      wordOfBytes_beBytes 32 p (by rw [← h2] at hp; exact hp),
      wordOfBytes_beBytes 32 e (by rw [← h2] at he; exact he)]

set_option maxRecDepth 4000 in
/-- Witness for C5 (amended) on a concrete 200-byte payload. -/
theorem C5_decode_amended_witness :
    CompliancePaymaster.decode (List.replicate 200 0)
      = .ok { attUid := wordOfBytes (((List.replicate 200 (0 : Nat)).drop 20).take 32)
              policyHash := wordOfBytes (((List.replicate 200 (0 : Nat)).drop 52).take 32)
              epoch := wordOfBytes (((List.replicate 200 (0 : Nat)).drop 84).take 32) } :=
  (C5_decode_amended.1 (List.replicate 200 0)).2 (by simp)

/-- C2 (code-bug evidence): the Authorization Validator keeps no
nullifier set — `validatePaymasterUserOp` writes no storage, `postOp`
is an empty body ("MVP: no accounting"), and the contract declares no
replay-related error — so resubmitting the identical payload for the
same (operationHash, epoch) after a successful validation is accepted
again rather than rejected.  Concretely: a valid payload for
`(userOpHash, epoch) = (3, 7)` validates to success, `postOp` leaves
the whitelist storage unchanged, and the identical second submission
against the post-`postOp` storage validates to success again. -/
theorem C2_replay_accepted :
    CompliancePaymaster.validateWithMockEAS
        (MockEAS.set (fun _ => zeroAttestation) 1000 1 5 9 4600 0) 5 (fun x => x == 9) 2000
        (fun _ => 0) (List.replicate 20 0 ++ beBytes 32 1 ++ beBytes 32 0 ++ beBytes 32 7) 3
      = .ok ()
    ∧ CompliancePaymaster.postOp ⟨fun x => x == 9⟩ = ⟨fun x => x == 9⟩
    ∧ CompliancePaymaster.validateWithMockEAS
        (MockEAS.set (fun _ => zeroAttestation) 1000 1 5 9 4600 0) 5
        (CompliancePaymaster.postOp ⟨fun x => x == 9⟩).attesterWhitelist 2000
        (fun _ => 0) (List.replicate 20 0 ++ beBytes 32 1 ++ beBytes 32 0 ++ beBytes 32 7) 3
      = .ok () :=
  ⟨rfl, rfl, rfl⟩

/-- C4 (amended): an attestation is honored only if its attester is
whitelisted and its expiration, when nonzero, is at least the current
time; with expiration = issuance + 3600, validation at issuance + 3599
succeeds; validation at issuance + 3601 fails — but with
`InvalidAttestation`, because `MockEAS.isAttestationValid` already
rejects expired attestations before the paymaster reaches its own
`ExpiredAttestation` check; and a non-whitelisted attester fails with
`AttesterNotWhitelisted`. -/
theorem C4_attestation_checks :
    (∀ (a : Nat → EVMAttestation) (suid : Nat) (wl : Nat → Bool) (ts : Nat)
        (kec : List Nat → Nat) (d : List Nat) (h : Nat),
      CompliancePaymaster.validateWithMockEAS a suid wl ts kec d h = .ok () →
      ∃ pmd, CompliancePaymaster.decode d = .ok pmd
        ∧ wl (a pmd.attUid).attester = true
        ∧ ((a pmd.attUid).expirationTime = 0 ∨ ts ≤ (a pmd.attUid).expirationTime))
    ∧ CompliancePaymaster.validateWithMockEAS
        (MockEAS.set (fun _ => zeroAttestation) 1000 1 5 9 4600 0) 5 (fun x => x == 9) 4599
        (fun _ => 0) (List.replicate 20 0 ++ beBytes 32 1 ++ beBytes 32 0 ++ beBytes 32 7) 3
        = .ok ()
    ∧ CompliancePaymaster.validateWithMockEAS
        (MockEAS.set (fun _ => zeroAttestation) 1000 1 5 9 4600 0) 5 (fun x => x == 9) 4601
        (fun _ => 0) (List.replicate 20 0 ++ beBytes 32 1 ++ beBytes 32 0 ++ beBytes 32 7) 3
        = .error .InvalidAttestation
    ∧ (∀ (a : Nat → EVMAttestation) (suid : Nat) (wl : Nat → Bool) (ts : Nat)
        (kec : List Nat → Nat) (d : List Nat) (h : Nat) (pmd : PaymasterData),
      CompliancePaymaster.decode d = .ok pmd →
      MockEAS.isAttestationValid a ts pmd.attUid = true →
      (a pmd.attUid).schema = suid →
      wl (a pmd.attUid).attester = false →
      CompliancePaymaster.validateWithMockEAS a suid wl ts kec d h
        = .error .AttesterNotWhitelisted) := by
  refine ⟨?_, rfl, rfl, ?_⟩
  · intro a suid wl ts kec d h hval
    unfold CompliancePaymaster.validateWithMockEAS
      CompliancePaymaster.validatePaymasterUserOp at hval
    cases hdec : CompliancePaymaster.decode d with
    | error e =>
      rw [hdec] at hval
      exact absurd hval (by simp)
    | ok pmd =>
      rw [hdec] at hval
      simp only [] at hval
      split_ifs at hval with h1 h2 h3 h4 h5
      simp at hval
      refine ⟨pmd, rfl, by simpa using h3, ?_⟩
      rcases eq_or_ne ((a pmd.attUid).expirationTime) 0 with h0 | h0
      · exact Or.inl h0
      · rcases not_and_or.mp h4 with hc | hc
        · exact absurd h0 (by simpa using hc)
        · exact Or.inr (by omega)
  · intro a suid wl ts kec d h pmd hdec hvalid hschema hwl
    unfold CompliancePaymaster.validateWithMockEAS CompliancePaymaster.validatePaymasterUserOp
    rw [hdec]
    simp [hvalid, hschema, hwl]

/-- C4 counterexample: at the concrete scenario of the claim —
attestation issued at 1000 with expiration 1000 + 3600, whitelisted
attester, matching schema and policy hash — validating at
issuance + 3601 yields `InvalidAttestation`, not the
`ExpiredAttestation` the claim states. -/
theorem C4_expired_counterexample :
    CompliancePaymaster.validateWithMockEAS
        (MockEAS.set (fun _ => zeroAttestation) 1000 1 5 9 4600 0) 5 (fun x => x == 9) 4601
        (fun _ => 0) (List.replicate 20 0 ++ beBytes 32 1 ++ beBytes 32 0 ++ beBytes 32 7) 3
      = .error .InvalidAttestation
    ∧ VError.InvalidAttestation ≠ VError.ExpiredAttestation :=
  ⟨rfl, by decide⟩

/-- Witness for C4 (amended), exercising the `AttesterNotWhitelisted`
branch at a concrete state whose attester is outside the whitelist. -/
theorem C4_attestation_checks_witness :
    CompliancePaymaster.validateWithMockEAS
        (MockEAS.set (fun _ => zeroAttestation) 1000 1 5 9 4600 0) 5 (fun _ => false) 2000
        (fun _ => 0) (List.replicate 20 0 ++ beBytes 32 1 ++ beBytes 32 0 ++ beBytes 32 7) 3
      = .error .AttesterNotWhitelisted :=
  C4_attestation_checks.2.2.2
    (MockEAS.set (fun _ => zeroAttestation) 1000 1 5 9 4600 0) 5 (fun _ => false) 2000
    (fun _ => 0) (List.replicate 20 0 ++ beBytes 32 1 ++ beBytes 32 0 ++ beBytes 32 7) 3
    { attUid := 1, policyHash := 0, epoch := 7 } rfl rfl rfl rfl

/-! ### Lemmas about the off-chain pipeline -/

/-- A valid policy validation implies, in particular: the epoch cap
was not exceeded, both addresses are well-formed and the amount is
nonzero (each would have produced a violation). -/
theorem validate_valid_facts (cfg : AgentConfig) (sp : Int → Int) (req : PaymentRequest)
    (epoch ce : Int)
    (h : (PolicyValidator.validate cfg sp req epoch ce).valid = true) :
    sp epoch + req.amountIn ≤ cfg.maxTransactionValue * 10
    ∧ isValidAddress req.merchant = true
    ∧ isValidAddress req.tokenIn = true
    ∧ req.amountIn ≠ 0 := by
  simp only [PolicyValidator.validate, List.isEmpty_iff, List.append_eq_nil] at h
  obtain ⟨⟨⟨⟨⟨⟨⟨h1, h2⟩, h3⟩, h4⟩, h5⟩, h6⟩, h7⟩, h8⟩ := h
  refine ⟨?_, ?_, ?_, ?_⟩
  · by_contra hc
    push_neg at hc
    rw [if_pos hc] at h5
    exact absurd h5 (by simp)
  · by_contra hc
    rw [Bool.not_eq_true] at hc
    rw [if_neg (by simp [hc])] at h7
    exact absurd h7 (by simp)
  · by_contra hc
    rw [Bool.not_eq_true] at hc
    rw [if_neg (by simp [hc])] at h8
    exact absurd h8 (by simp)
  · intro hc
    rw [if_pos hc] at h4
    exact absurd h4 (by simp)

/-- The decision block approves only under a valid policy
validation. -/
theorem riskDecision_approved_policyValid (pv : Bool) (s : Nat)
    (h : (RiskAnalyzer.riskDecision pv s).1 = true) : pv = true := by
  cases pv
  · exact absurd h (by simp [RiskAnalyzer.riskDecision])
  · rfl

/-- An attestation built by `createAttestation` always passes
`verifyAttestation` at the same instant: its expiration lies 3600
seconds in the future and its schema is copied from the
configuration. -/
theorem verifyAttestation_createAttestation (ext : ExtLib) (cfg : AgentConfig)
    (plan : TransactionPlan) (m pr pd : String) (ns : Int) :
    AttestationManager.verifyAttestation cfg
      (AttestationManager.createAttestation ext cfg plan m pr pd ns) ns = true := by
  unfold AttestationManager.verifyAttestation AttestationManager.createAttestation
  rw [if_neg (by simp)]
  rw [if_neg (by simp)]

/-- How one `processPayment` call affects the Policy-Store spending
map: an approved call records exactly the requested amount at the
effective epoch (and implies the cap check passed); any non-approved
call (policy rejection, risk rejection, or a thrown error) leaves the
map untouched. -/
theorem processPayment_epochSpending (ext : ExtLib) (cfg : AgentConfig) (o : PaymentOptions)
    (ce ns : Int) (st : AgentState) (req : PaymentRequest) :
    (approvedResult (zkAgent.processPayment ext cfg o ce ns st req).1 = true →
        (zkAgent.processPayment ext cfg o ce ns st req).2.epochSpending
            = PolicyValidator.recordSpending st.epochSpending (jsOrInt o.epoch ce) req.amountIn
          ∧ st.epochSpending (jsOrInt o.epoch ce) + req.amountIn
              ≤ cfg.maxTransactionValue * 10)
    ∧ (approvedResult (zkAgent.processPayment ext cfg o ce ns st req).1 = false →
        (zkAgent.processPayment ext cfg o ce ns st req).2.epochSpending
          = st.epochSpending) := by
  by_cases hc : (zkAgent.validateConfiguration cfg).1
  case neg =>
    simp [zkAgent.processPayment, hc, approvedResult]
  case pos =>
  by_cases hp : (TransactionBuilder.validate
      (TransactionBuilder.buildPlan ext req (jsOrInt o.epoch ce))).1
  case neg =>
    simp [zkAgent.processPayment, hc, hp, approvedResult]
  case pos =>
  by_cases hskip : o.skipRiskAnalysis
  case pos =>
    by_cases hv : (PolicyValidator.validate cfg st.epochSpending req
        (jsOrInt o.epoch ce) ce).valid
    · constructor
      · intro _
        refine ⟨?_, (validate_valid_facts _ _ _ _ _ hv).1⟩
        simp [zkAgent.processPayment, hc, hp, hskip, hv,
          verifyAttestation_createAttestation]
      · intro hfalse
        exfalso
        simp [zkAgent.processPayment, hc, hp, hskip, hv, approvedResult,
          verifyAttestation_createAttestation] at hfalse
    · constructor
      · intro htrue
        exfalso
        simp [zkAgent.processPayment, hc, hp, hskip, hv, approvedResult] at htrue
      · intro _
        simp [zkAgent.processPayment, hc, hp, hskip, hv, approvedResult]
  case neg =>
    by_cases ha : (RiskAnalyzer.analyze st.merchantDatabase st.transactionHistory req
        (PolicyValidator.validate cfg st.epochSpending req
          (jsOrInt o.epoch ce) ce).valid).1.approved
    · have hv : (PolicyValidator.validate cfg st.epochSpending req
          (jsOrInt o.epoch ce) ce).valid = true :=
        riskDecision_approved_policyValid _ _ ha
      constructor
      · intro _
        refine ⟨?_, (validate_valid_facts _ _ _ _ _ hv).1⟩
        simp [zkAgent.processPayment, hc, hp, hskip, ha,
          verifyAttestation_createAttestation]
      · intro hfalse
        exfalso
        simp [zkAgent.processPayment, hc, hp, hskip, ha, approvedResult,
          verifyAttestation_createAttestation] at hfalse
    · constructor
      · intro htrue
        exfalso
        simp [zkAgent.processPayment, hc, hp, hskip, ha, approvedResult] at htrue
      · intro _
        simp [zkAgent.processPayment, hc, hp, hskip, ha, approvedResult]

/-- Spending ledger after a sequential run: the effective-epoch entry
grows by exactly the sum of the approved amounts. -/
theorem runPayments_spend_sum (ext : ExtLib) (cfg : AgentConfig) (o : PaymentOptions)
    (ce ns e : Int) (he : jsOrInt o.epoch ce = e) :
    ∀ (rs : List PaymentRequest) (st : AgentState),
      (zkAgent.runPayments ext cfg o ce ns st rs).epochSpending e
        = st.epochSpending e + (zkAgent.approvedAmounts ext cfg o ce ns st rs).sum := by
  intro rs
  induction rs with
  | nil =>
    intro st
    simp [zkAgent.runPayments, zkAgent.approvedAmounts]
  | cons r rs ih =>
    intro st
    rw [zkAgent.runPayments, zkAgent.approvedAmounts, ih]
    cases happ : approvedResult (zkAgent.processPayment ext cfg o ce ns st r).1 with
    | false =>
      have h2 := (processPayment_epochSpending ext cfg o ce ns st r).2 happ
      rw [h2]
      simp [happ]
    | true =>
      have h1 := ((processPayment_epochSpending ext cfg o ce ns st r).1 happ).1
      rw [h1, he]
      simp [happ, PolicyValidator.recordSpending]
      omega

/-- The per-epoch cap `maxTransactionValue * 10` is preserved by any
sequential run that starts within it. -/
theorem runPayments_cap (ext : ExtLib) (cfg : AgentConfig) (o : PaymentOptions)
    (ce ns e : Int) (he : jsOrInt o.epoch ce = e) :
    ∀ (rs : List PaymentRequest) (st : AgentState),
      st.epochSpending e ≤ cfg.maxTransactionValue * 10 →
      (zkAgent.runPayments ext cfg o ce ns st rs).epochSpending e
        ≤ cfg.maxTransactionValue * 10 := by
  intro rs
  induction rs with
  | nil =>
    intro st h
    simpa [zkAgent.runPayments] using h
  | cons r rs ih =>
    intro st h
    rw [zkAgent.runPayments]
    apply ih
    cases happ : approvedResult (zkAgent.processPayment ext cfg o ce ns st r).1 with
    | false =>
      rw [(processPayment_epochSpending ext cfg o ce ns st r).2 happ]
      exact h
    | true =>
      have h1 := (processPayment_epochSpending ext cfg o ce ns st r).1 happ
      rw [h1.1, he]
      have hcap := h1.2
      rw [he] at hcap
      simp [PolicyValidator.recordSpending]
      omega

/-- C3: along any sequence of submissions at a fixed effective epoch,
the recorded spend for that epoch equals its initial value plus the
sum of the approved amounts; it never exceeds the per-epoch cap
`maxTransactionValue * 10` when it starts within it; and a submission
whose amount would push the spend over the cap is not approved and
leaves the spending map unchanged. -/
theorem C3_spend_cap (ext : ExtLib) (cfg : AgentConfig) (o : PaymentOptions)
    (ce ns e : Int) (st : AgentState) (rs : List PaymentRequest)
    (he : jsOrInt o.epoch ce = e) :
    ((zkAgent.runPayments ext cfg o ce ns st rs).epochSpending e
        = st.epochSpending e + (zkAgent.approvedAmounts ext cfg o ce ns st rs).sum)
    ∧ (st.epochSpending e ≤ cfg.maxTransactionValue * 10 →
        (zkAgent.runPayments ext cfg o ce ns st rs).epochSpending e
          ≤ cfg.maxTransactionValue * 10)
    ∧ (∀ r : PaymentRequest,
        cfg.maxTransactionValue * 10 < st.epochSpending e + r.amountIn →
        approvedResult (zkAgent.processPayment ext cfg o ce ns st r).1 = false
        ∧ (zkAgent.processPayment ext cfg o ce ns st r).2.epochSpending
            = st.epochSpending) := by
  refine ⟨runPayments_spend_sum ext cfg o ce ns e he rs st, 
    runPayments_cap ext cfg o ce ns e he rs st, ?_⟩
  intro r hover
  cases happ : approvedResult (zkAgent.processPayment ext cfg o ce ns st r).1 with
  | false =>
    exact ⟨rfl, (processPayment_epochSpending ext cfg o ce ns st r).2 happ⟩
  | true =>
    exfalso
    have hcap := ((processPayment_epochSpending ext cfg o ce ns st r).1 happ).2
    rw [he] at hcap
    omega

/-- Witness for C3 at a concrete configuration, state and (empty)
submission list, with the effective-epoch hypothesis discharged by
evaluation. -/
theorem C3_spend_cap_witness :
    (zkAgent.runPayments ⟨fun _ => "", fun _ => [], fun _ => [], fun _ => ""⟩
        ⟨"0xp", "url", "m", "s", 100, [], []⟩ ⟨none, none, none, some 3, false⟩ 0 0
        ⟨fun _ => 0, [], fun _ => none⟩ []).epochSpending 3
      = (⟨fun _ => 0, [], fun _ => none⟩ : AgentState).epochSpending 3
        + (zkAgent.approvedAmounts ⟨fun _ => "", fun _ => [], fun _ => [], fun _ => ""⟩
            ⟨"0xp", "url", "m", "s", 100, [], []⟩ ⟨none, none, none, some 3, false⟩ 0 0
            ⟨fun _ => 0, [], fun _ => none⟩ []).sum :=
  (C3_spend_cap ⟨fun _ => "", fun _ => [], fun _ => [], fun _ => ""⟩
    ⟨"0xp", "url", "m", "s", 100, [], []⟩ ⟨none, none, none, some 3, false⟩ 0 0 3
    ⟨fun _ => 0, [], fun _ => none⟩ [] rfl).1

/-- C6: whenever the pipeline does not approve a request — policy
validation failed, the risk decision rejected it, or an error was
thrown — the Policy-Store spending map is identical before and after
the call; nothing is recorded on any failure path (the TypeScript
Policy Store keeps no nullifier set to mark). -/
theorem C6_rejection_no_side_effects (ext : ExtLib) (cfg : AgentConfig) (o : PaymentOptions)
    (ce ns : Int) (st : AgentState) (req : PaymentRequest)
    (h : approvedResult (zkAgent.processPayment ext cfg o ce ns st req).1 = false) :
    (zkAgent.processPayment ext cfg o ce ns st req).2.epochSpending = st.epochSpending :=
  (processPayment_epochSpending ext cfg o ce ns st req).2 h

/-- Witness for C6: a concrete rejected call (invalid configuration)
leaves the concrete spending map unchanged. -/
theorem C6_rejection_no_side_effects_witness :
    (zkAgent.processPayment ⟨fun _ => "", fun _ => [], fun _ => [], fun _ => ""⟩
        ⟨"", "", "", "", 0, [], []⟩ ⟨none, none, none, none, false⟩ 0 0
        ⟨fun _ => 0, [], fun _ => none⟩ ⟨"m", "t", 1, "d"⟩).2.epochSpending
      = (⟨fun _ => 0, [], fun _ => none⟩ : AgentState).epochSpending :=
  C6_rejection_no_side_effects ⟨fun _ => "", fun _ => [], fun _ => [], fun _ => ""⟩
    ⟨"", "", "", "", 0, [], []⟩ ⟨none, none, none, none, false⟩ 0 0
    ⟨fun _ => 0, [], fun _ => none⟩ ⟨"m", "t", 1, "d"⟩ rfl

/-- Decision-band helper: scores below 30 are approved as low risk. -/
theorem riskDecision_low (s : Nat) (h : s < 30) :
    RiskAnalyzer.riskDecision true s = (true, "Low risk transaction", none, []) := by
  unfold RiskAnalyzer.riskDecision
  rw [if_neg (by simp), if_pos h]

/-- Decision-band helper: scores in `[30, 60)` are approved with
monitoring. -/
theorem riskDecision_medium (s : Nat) (h1 : 30 ≤ s) (h2 : s < 60) :
    RiskAnalyzer.riskDecision true s
      = (true, "Medium risk transaction - approved with monitoring", none,
          ["REQUIRES_MONITORING"]) := by
  unfold RiskAnalyzer.riskDecision
  rw [if_neg (by simp), if_neg (by omega), if_pos h2]

/-- Decision-band helper: scores in `[60, 80)` are rejected for
review. -/
theorem riskDecision_high (s : Nat) (h1 : 60 ≤ s) (h2 : s < 80) :
    RiskAnalyzer.riskDecision true s
      = (false, "High risk transaction - requires review", some "Manual review required",
          ["REQUIRES_REVIEW"]) := by
  unfold RiskAnalyzer.riskDecision
  rw [if_neg (by simp), if_neg (by omega), if_neg (by omega), if_pos h2]

/-- Decision-band helper: scores of 80 and above are rejected as very
high risk. -/
theorem riskDecision_veryHigh (s : Nat) (h : 80 ≤ s) :
    RiskAnalyzer.riskDecision true s
      = (false, "Very high risk transaction - rejected",
          some "Transaction blocked due to high risk", []) := by
  unfold RiskAnalyzer.riskDecision
  rw [if_neg (by simp), if_neg (by omega), if_neg (by omega), if_neg (by omega)]

/-- C7: with a valid policy validation, the decision is a function of
the risk-score band alone — score < 30 (hence exactly 29) approves as
low risk; 30 ≤ score < 60 (hence exactly 30) approves with the
REQUIRES_MONITORING flag; 60 ≤ score < 80 (hence exactly 60) rejects
for manual review; score ≥ 80 (hence exactly 80) rejects as very high
risk — and `analyze` takes its approval, reason and branch flags from
exactly that band function applied to the computed score. -/
theorem C7_decision_bands :
    (∀ s : Nat, s < 30 →
      RiskAnalyzer.riskDecision true s = (true, "Low risk transaction", none, []))
    ∧ (∀ s : Nat, 30 ≤ s → s < 60 →
      RiskAnalyzer.riskDecision true s
        = (true, "Medium risk transaction - approved with monitoring", none,
            ["REQUIRES_MONITORING"]))
    ∧ (∀ s : Nat, 60 ≤ s → s < 80 →
      RiskAnalyzer.riskDecision true s
        = (false, "High risk transaction - requires review", some "Manual review required",
            ["REQUIRES_REVIEW"]))
    ∧ (∀ s : Nat, 80 ≤ s →
      RiskAnalyzer.riskDecision true s
        = (false, "Very high risk transaction - rejected",
            some "Transaction blocked due to high risk", []))
    ∧ (∀ (db : String → Option MerchantInfo) (hist : List PaymentRequest)
        (req : PaymentRequest),
        (RiskAnalyzer.analyze db hist req true).1.approved
            = (RiskAnalyzer.riskDecision true
                (RiskAnalyzer.calculateRiskScore
                  (RiskAnalyzer.identifyRiskFactors db hist req) true)).1
        ∧ (RiskAnalyzer.analyze db hist req true).1.reason
            = (RiskAnalyzer.riskDecision true
                (RiskAnalyzer.calculateRiskScore
                  (RiskAnalyzer.identifyRiskFactors db hist req) true)).2.1
        ∧ (30 ≤ RiskAnalyzer.calculateRiskScore
              (RiskAnalyzer.identifyRiskFactors db hist req) true →
           RiskAnalyzer.calculateRiskScore
              (RiskAnalyzer.identifyRiskFactors db hist req) true < 60 →
           "REQUIRES_MONITORING" ∈ (RiskAnalyzer.analyze db hist req true).1.flags)) := by
  refine ⟨riskDecision_low, riskDecision_medium, riskDecision_high, riskDecision_veryHigh,
    ?_⟩
  intro db hist req
  refine ⟨rfl, rfl, ?_⟩
  intro h1 h2
  unfold RiskAnalyzer.analyze
  simp only [riskDecision_medium _ h1 h2]
  simp

/-- Witness for C7 at the boundary scores 29, 30, 60 and 80 named by
the claim. -/
theorem C7_decision_bands_witness :
    RiskAnalyzer.riskDecision true 29 = (true, "Low risk transaction", none, [])
    ∧ RiskAnalyzer.riskDecision true 30
        = (true, "Medium risk transaction - approved with monitoring", none,
            ["REQUIRES_MONITORING"])
    ∧ RiskAnalyzer.riskDecision true 60
        = (false, "High risk transaction - requires review", some "Manual review required",
            ["REQUIRES_REVIEW"])
    ∧ RiskAnalyzer.riskDecision true 80
        = (false, "Very high risk transaction - rejected",
            some "Transaction blocked due to high risk", []) :=
  ⟨C7_decision_bands.1 29 (by decide),
   C7_decision_bands.2.1 30 (by decide) (by decide),
   C7_decision_bands.2.2.1 60 (by decide) (by decide),
   C7_decision_bands.2.2.2.1 80 (by decide)⟩

/-- C8: the computed risk score is exactly the capped sum of the
triggered factor weights the claim lists (+100 policy violation, +20
unknown merchant, +15 unknown token, +25 amount outlier gated on at
least 10 history samples, +30 velocity, +10 per recent failure; the
remaining `gasUnusual` factor is hard-wired off and contributes
nothing), and a policy violation always forces rejection. -/
theorem C8_score_formula :
    (∀ (db : String → Option MerchantInfo) (hist : List PaymentRequest)
        (req : PaymentRequest) (pv : Bool),
      RiskAnalyzer.calculateRiskScore (RiskAnalyzer.identifyRiskFactors db hist req) pv
        = specRiskScore db hist req pv)
    ∧ (∀ (db : String → Option MerchantInfo) (hist : List PaymentRequest)
        (req : PaymentRequest),
      (RiskAnalyzer.analyze db hist req false).1.approved = false) := by
  constructor
  · intro db hist req pv
    unfold RiskAnalyzer.calculateRiskScore RiskAnalyzer.identifyRiskFactors specRiskScore
      RiskAnalyzer.isUnusualAmount RiskAnalyzer.getRecentFailures
    by_cases h10 : hist.length < 10
    · have h10b : ¬ (10 ≤ hist.length) := by omega
      cases pv <;> simp [h10, h10b]
    · have h10b : 10 ≤ hist.length := by omega
      cases pv <;> cases ho : RiskAnalyzer.outlier hist req.amountIn <;>
        simp [h10, h10b, ho]
  · intro db hist req
    rfl

/-- C9: a malformed merchant address, malformed token address or zero
amount always fails policy validation, and the resulting decision kind
— reason "Policy validation failed" — is produced by every
policy-invalid analysis and by no policy-valid analysis, so the caller
can distinguish invalid input from a risk-based rejection. -/
theorem C9_invalid_input_distinct :
    (∀ (cfg : AgentConfig) (sp : Int → Int) (req : PaymentRequest) (epoch ce : Int),
      (isValidAddress req.merchant = false ∨ isValidAddress req.tokenIn = false
        ∨ req.amountIn = 0) →
      (PolicyValidator.validate cfg sp req epoch ce).valid = false)
    ∧ (∀ (db : String → Option MerchantInfo) (hist : List PaymentRequest)
        (req : PaymentRequest),
      (RiskAnalyzer.analyze db hist req false).1.approved = false
      ∧ (RiskAnalyzer.analyze db hist req false).1.reason = "Policy validation failed")
    ∧ (∀ (db : String → Option MerchantInfo) (hist : List PaymentRequest)
        (req : PaymentRequest),
      (RiskAnalyzer.analyze db hist req true).1.reason ≠ "Policy validation failed") := by
  refine ⟨?_, ?_, ?_⟩
  · intro cfg sp req epoch ce h
    by_contra hv
    rw [Bool.not_eq_false] at hv
    have hfacts := validate_valid_facts cfg sp req epoch ce hv
    rcases h with h | h | h
    · rw [hfacts.2.1] at h
      exact absurd h (by simp)
    · rw [hfacts.2.2.1] at h
      exact absurd h (by simp)
    · exact hfacts.2.2.2 h
  · intro db hist req
    exact ⟨rfl, rfl⟩
  · intro db hist req
    have hr : (RiskAnalyzer.analyze db hist req true).1.reason
        = (RiskAnalyzer.riskDecision true
            (RiskAnalyzer.calculateRiskScore
              (RiskAnalyzer.identifyRiskFactors db hist req) true)).2.1 := rfl
    rw [hr]
    set s := RiskAnalyzer.calculateRiskScore
      (RiskAnalyzer.identifyRiskFactors db hist req) true with hs
    rcases Nat.lt_or_ge s 30 with h | h
    · rw [riskDecision_low s h]
      simp
    · rcases Nat.lt_or_ge s 60 with h2 | h2
      · rw [riskDecision_medium s h h2]
        simp
      · rcases Nat.lt_or_ge s 80 with h3 | h3
        · rw [riskDecision_high s h2 h3]
          simp
        · rw [riskDecision_veryHigh s h3]
          simp

/-- Witness for C9 at a concrete malformed merchant address. -/
theorem C9_invalid_input_distinct_witness :
    (PolicyValidator.validate ⟨"0xp", "url", "m", "s", 100, [], []⟩ (fun _ => 0)
        ⟨"not-an-address", "0xa0b86991c6218b36c1d19d4a2e9eb0ce3606eb48", 1, "d"⟩ 0 0).valid
      = false :=
  C9_invalid_input_distinct.1 ⟨"0xp", "url", "m", "s", 100, [], []⟩ (fun _ => 0)
    ⟨"not-an-address", "0xa0b86991c6218b36c1d19d4a2e9eb0ce3606eb48", 1, "d"⟩ 0 0
    (Or.inl (by decide))

/-- The fueled Newton loop agrees with the standard Newton iteration
`Nat.sqrt.iter` whenever the fuel is at least the current `x` (each
pass strictly decreases `x`, so this fuel never runs out). -/
theorem sqrtGo_eq_iter (value : Nat) : ∀ (fuel x : Nat), x ≤ fuel →
    RiskAnalyzer.sqrtGo value fuel x ((x + value / x) / 2) = Nat.sqrt.iter value x := by
  intro fuel
  induction fuel with
  | zero =>
    intro x hx
    interval_cases x
    simp [RiskAnalyzer.sqrtGo, Nat.sqrt.iter]
  | succ n ih =>
    intro x hx
    rw [RiskAnalyzer.sqrtGo, Nat.sqrt.iter]
    by_cases h : (x + value / x) / 2 < x
    · simp only [h, if_pos, dif_pos]
      exact ih _ (by omega)
    · simp [h]

/-- `RiskAnalyzer.sqrt` never returns a negative value. -/
theorem rsqrt_nonneg (v : Int) : 0 ≤ RiskAnalyzer.sqrt v := by
  unfold RiskAnalyzer.sqrt
  split_ifs with h1 h2
  · exact le_refl 0
  · omega
  · exact Int.natCast_nonneg _

/-- Characterization of `RiskAnalyzer.sqrt` on nonnegative inputs: it
returns the integer square root. -/
theorem rsqrt_char (v : Int) (h : 0 ≤ v) :
    RiskAnalyzer.sqrt v * RiskAnalyzer.sqrt v ≤ v
    ∧ v < (RiskAnalyzer.sqrt v + 1) * (RiskAnalyzer.sqrt v + 1) := by
  by_cases h2 : v < 2
  · interval_cases v <;> constructor <;> decide
  · unfold RiskAnalyzer.sqrt
    rw [if_neg (by omega), if_neg h2]
    have hn2 : 2 ≤ v.toNat := by omega
    have hv : ((v.toNat : Int)) = v := Int.toNat_of_nonneg h
    have hdivself : v.toNat / v.toNat = 1 := Nat.div_self (by omega)
    have hiter : RiskAnalyzer.sqrtGo v.toNat v.toNat v.toNat ((v.toNat + 1) / 2)
        = Nat.sqrt.iter v.toNat v.toNat := by
      have hgo := sqrtGo_eq_iter v.toNat v.toNat v.toNat le_rfl
      rw [hdivself] at hgo
      exact hgo
    rw [hiter]
    have hle := Nat.sqrt.iter_sq_le v.toNat v.toNat
    have hsucc : v.toNat + 1 ≤ (v.toNat + 1) * (v.toNat + 1) :=
      Nat.le_mul_of_pos_left _ (by omega)
    have hlt := Nat.sqrt.lt_iter_succ_sq v.toNat v.toNat (by omega)
    constructor
    · rw [← hv]
      simp only [Int.ofNat_eq_natCast]
      exact_mod_cast hle
    · rw [← hv]
      simp only [Int.ofNat_eq_natCast]
      exact_mod_cast hlt

/-- C10: for every nonnegative input `v`, `RiskAnalyzer.sqrt v` is the
integer square root of `v` — the unique `r ≥ 0` with `r * r ≤ v` and
`v < (r + 1) * (r + 1)` (the Lean model replaces the while loop by an
equivalent fueled recursion, so totality is by construction); and
`calculateStdDev` always returns a nonnegative value. -/
theorem C10_sqrt_correct (v : Int) (h : 0 ≤ v) :
    0 ≤ RiskAnalyzer.sqrt v
    ∧ RiskAnalyzer.sqrt v * RiskAnalyzer.sqrt v ≤ v
    ∧ v < (RiskAnalyzer.sqrt v + 1) * (RiskAnalyzer.sqrt v + 1)
    ∧ (∀ r : Int, 0 ≤ r → r * r ≤ v → v < (r + 1) * (r + 1) → r = RiskAnalyzer.sqrt v)
    ∧ (∀ (amounts : List Int) (avg : Int), 0 ≤ RiskAnalyzer.calculateStdDev amounts avg) := by
  obtain ⟨hle, hlt⟩ := rsqrt_char v h
  have hnn := rsqrt_nonneg v
  refine ⟨hnn, hle, hlt, ?_, ?_⟩
  · intro r hr hrle hrlt
    rcases lt_trichotomy r (RiskAnalyzer.sqrt v) with hc | hc | hc
    · exfalso
      have h1 : r + 1 ≤ RiskAnalyzer.sqrt v := by omega
      have h2 : (r + 1) * (r + 1) ≤ RiskAnalyzer.sqrt v * RiskAnalyzer.sqrt v :=
        mul_le_mul h1 h1 (by omega) (by omega)
      linarith
    · exact hc
    · exfalso
      have h1 : RiskAnalyzer.sqrt v + 1 ≤ r := by omega
      have h2 : (RiskAnalyzer.sqrt v + 1) * (RiskAnalyzer.sqrt v + 1) ≤ r * r :=
        mul_le_mul h1 h1 (by omega) (by omega)
      linarith
  · intro amounts avg
    unfold RiskAnalyzer.calculateStdDev
    split_ifs
    · exact le_refl 0
    · exact rsqrt_nonneg _

/-- Witness for C10 at the concrete input 9 (whose integer square root
is 3). -/
theorem C10_sqrt_correct_witness :
    RiskAnalyzer.sqrt 9 * RiskAnalyzer.sqrt 9 ≤ 9
    ∧ (9 : Int) < (RiskAnalyzer.sqrt 9 + 1) * (RiskAnalyzer.sqrt 9 + 1)
    ∧ RiskAnalyzer.sqrt 9 = 3 :=
  ⟨(C10_sqrt_correct 9 (by decide)).2.1, (C10_sqrt_correct 9 (by decide)).2.2.1,
    ((C10_sqrt_correct 9 (by decide)).2.2.2.1 3 (by decide) (by decide) (by decide)).symm⟩
